import Mathlib

/-!
Verification development for `decode_response.py`, a developer tool that
reads a JSON "enclave response" document, extracts nested fields, converts
the MIST amount to SUI, and prints a fixed-format textual report.

The shallow embedding below mirrors the Python source:
* JSON documents are modelled by the inductive type `JValue`
  (numbers restricted to integers, the only numeric shape the tool's
  documented input uses);
* Python exceptions are modelled by the error type `PyError`
  (`keyError` for `KeyError`, `typeError` for `TypeError`, `valueError`
  for `ValueError` raised by `bytes(...)` on out-of-range elements,
  `unicodeDecodeError` for `UnicodeDecodeError`, `jsonDecodeError` for
  `json.JSONDecodeError`, `osError` for failures of `open`);
* `print` output is modelled as the list of strings passed to `print`,
  in order; a run that raises before the first `print` produces `.error`
  and hence no output at all.
-/

/-- JSON values as produced by Python's `json.load`, with numbers
restricted to integers (the documented input shape uses only integers). -/
inductive JValue where
  | null : JValue
  | bool : Bool → JValue
  | int : Int → JValue
  | str : String → JValue
  | arr : List JValue → JValue
  | obj : List (String × JValue) → JValue

/-- Python exception kinds that the script can raise. -/
inductive PyError where
  | keyError : String → PyError
  | typeError : PyError
  | valueError : PyError
  | unicodeDecodeError : PyError
  | jsonDecodeError : PyError
  | osError : PyError
deriving DecidableEq

instance {ε α : Type} [DecidableEq ε] [DecidableEq α] : DecidableEq (Except ε α) := fun a b =>
  match a, b with
  | .ok x, .ok y => if h : x = y then .isTrue (by rw [h]) else .isFalse (by simp [h])
  | .error x, .error y => if h : x = y then .isTrue (by rw [h]) else .isFalse (by simp [h])
  | .ok _, .error _ => .isFalse (by simp)
  | .error _, .ok _ => .isFalse (by simp)

/-- Python subscript access `d[k]` on a parsed JSON value: a `KeyError`
when the key is absent from a dict, a `TypeError` when the value is not
a dict (string subscripts on lists/strings/ints all raise `TypeError`). -/
def JValue.getKey : JValue → String → Except PyError JValue
  | .obj fields, k =>
    match fields.lookup k with
    | some v => .ok v
    | none => .error (.keyError k)
  | _, _ => .error .typeError

/-- Chained subscript access along a key path, e.g.
`getPath j [a, b]` models `j[a][b]`. -/
def getPath (j : JValue) : List String → Except PyError JValue
  | [] => .ok j
  | k :: ks =>
    match j.getKey k with
    | .ok v => getPath v ks
    | .error e => .error e

/-- Element-wise reading of a Python list as a list of integers:
a non-integer element raises `TypeError`. -/
def intElems : List JValue → Except PyError (List Int)
  | [] => .ok []
  | .int n :: rest =>
    match intElems rest with
    | .ok ns => .ok (n :: ns)
    | .error e => .error e
  | _ :: _ => .error .typeError

/-- Reading a Python list of integers out of a JSON value, as `bytes(...)`
iterates it: a non-list raises `TypeError`, as does a non-integer element. -/
def jIntList : JValue → Except PyError (List Int)
  | .arr xs => intElems xs
  | _ => .error .typeError

/-- Valid Unicode scalar values: below 0x110000 and not a surrogate. -/
def ValidCp (n : Nat) : Prop := n < 0x110000 ∧ ¬ (0xD800 ≤ n ∧ n < 0xE000)

instance (n : Nat) : Decidable (ValidCp n) := by unfold ValidCp; infer_instance

/-- UTF-8 encoding of one Unicode scalar value (as byte values). -/
def utf8EncodeCp (n : Nat) : List Nat :=
  if n < 0x80 then [n]
  else if n < 0x800 then [0xC0 + n / 64, 0x80 + n % 64]
  else if n < 0x10000 then [0xE0 + n / 4096, 0x80 + (n / 64) % 64, 0x80 + n % 64]
  else [0xF0 + n / 262144, 0x80 + (n / 4096) % 64, 0x80 + (n / 64) % 64, 0x80 + n % 64]

/-- UTF-8 encoding of a sequence of Unicode scalar values. -/
def utf8EncodeList : List Nat → List Nat
  | [] => []
  | c :: cs => utf8EncodeCp c ++ utf8EncodeList cs

/-- Continuation of a two-byte sequence started by `b0`: requires one
continuation byte and rejects overlong encodings (values below 0x80). -/
def utf8Step2 (b0 : Nat) : List Nat → Option (Nat × List Nat)
  | b1 :: rest =>
    if (0x80 ≤ b1 ∧ b1 < 0xC0) ∧ 0x80 ≤ (b0 - 0xC0) * 64 + (b1 - 0x80) then
      some ((b0 - 0xC0) * 64 + (b1 - 0x80), rest)
    else none
  | [] => none

/-- Continuation of a three-byte sequence started by `b0`: requires two
continuation bytes and rejects overlong encodings (values below 0x800)
and surrogates. -/
def utf8Step3 (b0 : Nat) : List Nat → Option (Nat × List Nat)
  | b1 :: b2 :: rest =>
    if ((0x80 ≤ b1 ∧ b1 < 0xC0) ∧ (0x80 ≤ b2 ∧ b2 < 0xC0)) ∧
        0x800 ≤ (b0 - 0xE0) * 4096 + (b1 - 0x80) * 64 + (b2 - 0x80) ∧
        ¬ (0xD800 ≤ (b0 - 0xE0) * 4096 + (b1 - 0x80) * 64 + (b2 - 0x80) ∧
           (b0 - 0xE0) * 4096 + (b1 - 0x80) * 64 + (b2 - 0x80) < 0xE000) then
      some ((b0 - 0xE0) * 4096 + (b1 - 0x80) * 64 + (b2 - 0x80), rest)
    else none
  | _ => none

/-- Continuation of a four-byte sequence started by `b0`: requires three
continuation bytes and rejects overlong encodings (values below 0x10000)
and values above 0x10FFFF. -/
def utf8Step4 (b0 : Nat) : List Nat → Option (Nat × List Nat)
  | b1 :: b2 :: b3 :: rest =>
    if ((0x80 ≤ b1 ∧ b1 < 0xC0) ∧ (0x80 ≤ b2 ∧ b2 < 0xC0) ∧ (0x80 ≤ b3 ∧ b3 < 0xC0)) ∧
        0x10000 ≤ (b0 - 0xF0) * 262144 + (b1 - 0x80) * 4096 + (b2 - 0x80) * 64 + (b3 - 0x80) ∧
        (b0 - 0xF0) * 262144 + (b1 - 0x80) * 4096 + (b2 - 0x80) * 64 + (b3 - 0x80) < 0x110000 then
      some ((b0 - 0xF0) * 262144 + (b1 - 0x80) * 4096 + (b2 - 0x80) * 64 + (b3 - 0x80), rest)
    else none
  | _ => none

/-- Decoding of a single UTF-8 scalar value from the front of a byte
sequence, returning the value and the remaining bytes: a lead byte in
0x80..0xBF (lone continuation) or 0xF8..0xFF is rejected outright. -/
def utf8Step : List Nat → Option (Nat × List Nat)
  | [] => none
  | b0 :: rest =>
    if b0 < 0x80 then some (b0, rest)
    else if b0 < 0xC0 then none
    else if b0 < 0xE0 then utf8Step2 b0 rest
    else if b0 < 0xF0 then utf8Step3 b0 rest
    else if b0 < 0xF8 then utf8Step4 b0 rest
    else none

/-- Fuel-driven decoding loop: decodes scalar values until the byte list
is exhausted. Each successful step consumes at least one byte, so fuel
equal to the length of the byte list always suffices. -/
def utf8DecodeLoop : Nat → List Nat → Option (List Nat)
  | _, [] => some []
  | 0, _ :: _ => none
  | fuel + 1, b0 :: rest =>
    match utf8Step (b0 :: rest) with
    | some (c, rest2) =>
      match utf8DecodeLoop fuel rest2 with
      | some cs => some (c :: cs)
      | none => none
    | none => none

/-- Strict UTF-8 decoding of a byte sequence into Unicode scalar values,
as performed by Python's `bytes.decode` with codec `utf-8`: rejects lone
or missing continuation bytes, overlong encodings, surrogates, and values
above 0x10FFFF. Returns `none` exactly when the bytes are not valid UTF-8. -/
def utf8DecodeList (bs : List Nat) : Option (List Nat) :=
  utf8DecodeLoop bs.length bs

/-- Embedding of the source function

`def decode_bytes(byte_array): return bytes(byte_array).decode(utf-8)`.

`bytes(byte_array)` first materialises the list, raising `ValueError` if
any element is outside `range(0, 256)`; only then does `.decode` run UTF-8
decoding, raising `UnicodeDecodeError` on invalid byte sequences. Decoded
scalar values are turned back into a Lean `String` via `Char.ofNat` (every
value produced by the strict decoder is a valid scalar value). -/
def decode_bytes (byte_array : List Int) : Except PyError String :=
  if byte_array.all (fun b => 0 ≤ b && b < 256) then
    match utf8DecodeList (byte_array.map Int.toNat) with
    | some cps => .ok (String.mk (cps.map Char.ofNat))
    | none => .error .unicodeDecodeError
  else .error .valueError

/-- Grouping of a reversed digit list in threes with comma separators,
the core of Python's comma thousands grouping. -/
def group3 : List Char → List Char
  | d1 :: d2 :: d3 :: d4 :: rest => d1 :: d2 :: d3 :: ',' :: group3 (d4 :: rest)
  | ds => ds

/-- Python's thousands-grouped integer formatting, as used by the
format spec in the Amount (MIST) line: digits of the absolute value are
grouped in threes from the right, with a leading minus sign if negative. -/
def pyFormatComma (n : Int) : String :=
  if n < 0 then "-" ++ String.mk ((group3 (toString n.natAbs).data.reverse).reverse)
  else String.mk ((group3 (toString n.natAbs).data.reverse).reverse)

/-- Single-quote character, used by the Python repr of strings. -/
def pyQuote : String := String.mk [Char.ofNat 39]

mutual

/-- Python `repr` of a parsed JSON value, used for elements shown inside
lists and dicts by `str`. -/
def pyRepr : JValue → String
  | .null => "None"
  | .bool true => "True"
  | .bool false => "False"
  | .int n => toString n
  | .str s => pyQuote ++ s ++ pyQuote
  | .arr xs => "[" ++ pyReprList xs ++ "]"
  | .obj fs => "\x7b" ++ pyReprFields fs ++ "\x7d"

/-- Comma-separated reprs of list elements. -/
def pyReprList : List JValue → String
  | [] => ""
  | [x] => pyRepr x
  | x :: xs => pyRepr x ++ ", " ++ pyReprList xs

/-- Comma-separated reprs of dict entries. -/
def pyReprFields : List (String × JValue) → String
  | [] => ""
  | [(k, v)] => pyQuote ++ k ++ pyQuote ++ ": " ++ pyRepr v
  | (k, v) :: fs => pyQuote ++ k ++ pyQuote ++ ": " ++ pyRepr v ++ ", " ++ pyReprFields fs

end

/-- Python `str` of a parsed JSON value, as interpolated by an f-string:
like `repr` except that a top-level string is shown without quotes. -/
def pyStr : JValue → String
  | .str s => s
  | v => pyRepr v

/-- Rendering of the `amount_sui` value. The Python script prints the
`float` produced by true division; this model computes the division
exactly over `ℚ` and renders integral results the way Python renders
integral floats (digits followed by `.0`), which coincides with Python's
output whenever the quotient is exactly representable, in particular in
every integral case. Non-integral quotients are rendered as exact
fractions, a deliberate exact-arithmetic stand-in for the shortest-repr
output of IEEE doubles. -/
def reprRat (q : ℚ) : String :=
  if q.den = 1 then toString q.num ++ ".0"
  else toString q.num ++ "/" ++ toString q.den

/-- Abbreviated signature display: `signature[:32]`, a literal ellipsis,
then `signature[-32:]`.
Python slices clamp to the string bounds: `s[:32]` is the first
`min 32 (length s)` characters and `s[-32:]` the last `min 32 (length s)`
characters, so no out-of-range error can occur. -/
def sigAbbrev (s : String) : String :=
  String.mk (s.data.take 32) ++ "..." ++ String.mk (s.data.drop (s.data.length - 32))

/-- Sixty-character separator line, `c * 60` in the source. -/
def sepLine (c : Char) : String := String.mk (List.replicate 60 c)

example : decode_bytes [88, 49] = .ok "X1" := by decide
example : decode_bytes [83, 85, 73] = .ok "SUI" := by decide
example : decode_bytes [128] = .error .unicodeDecodeError := by decide
example : decode_bytes [300] = .error .valueError := by decide
example : decode_bytes [-1] = .error .valueError := by decide
example : decode_bytes [0xC3, 0xA9] = .ok "é" := by decide
example : decode_bytes [0xC0, 0x80] = .error .unicodeDecodeError := by decide

/-- Transient entity holding the fields extracted by `decode_response`
before any line is printed. Its lifetime in the script is the body of one
`decode_response` call; here it is the intermediate value between the
extraction phase and the rendering phase (in the source, every extraction
statement precedes every `print` statement). -/
structure EnclaveResponse where
  from_xid : String
  to_xid : String
  amount_mist : Int
  amount_sui : ℚ
  coin_type : String
  timestamp_ms : JValue
  intent : JValue
  signature : String

/-- Coercion demanded of `data` at the division `amount_mist / 1_000_000_000`
and at the comma format spec: a non-number raises `TypeError`. -/
def jInt : JValue → Except PyError Int
  | .int n => .ok n
  | _ => .error .typeError

/-- Coercion demanded of `signature` by the slice subscripts
`signature[:32]` and `signature[-32:]`: a non-string raises `TypeError`
(slicing is modelled only for strings, the documented signature shape). -/
def jStr : JValue → Except PyError String
  | .str s => .ok s
  | _ => .error .typeError

/-- Extraction phase of `decode_response`, statement by statement in
source order:

`data = response_json[response][data]`,
`from_xid = decode_bytes(data[from_xid])`,
`to_xid = decode_bytes(data[to_xid])`,
`amount_mist = data[amount]`, `amount_sui = amount_mist / 1_000_000_000`,
`coin_type = decode_bytes(data[coin_type])`,
`timestamp_ms = response_json[response][timestamp_ms]`,
`intent = response_json[response][intent]`,
`signature = response_json[signature]`.

The division is modelled exactly over `ℚ`. The last three statements
re-read `response_json[response]` from the document just as the source
does. The first exception raised aborts the whole function. -/
def extractResponse (response_json : JValue) : Except PyError EnclaveResponse := do
  let response ← response_json.getKey "response"
  let data ← response.getKey "data"
  let from_xid ← decode_bytes (← jIntList (← data.getKey "from_xid"))
  let to_xid ← decode_bytes (← jIntList (← data.getKey "to_xid"))
  let amount_mist ← jInt (← data.getKey "amount")
  let amount_sui : ℚ := mkRat amount_mist 1000000000
  let coin_type ← decode_bytes (← jIntList (← data.getKey "coin_type"))
  let timestamp_ms ← (← response_json.getKey "response").getKey "timestamp_ms"
  let intent ← (← response_json.getKey "response").getKey "intent"
  let signature ← jStr (← response_json.getKey "signature")
  .ok { from_xid, to_xid, amount_mist, amount_sui, coin_type,
        timestamp_ms, intent, signature }

/-- Rendering phase of `decode_response`: the fourteen strings passed to
`print`, in source order, with the literal spacing of the f-strings. -/
def renderReport (r : EnclaveResponse) : List String :=
  [sepLine (Char.ofNat 61),
   "XWallet Transfer Payload (Decoded)",
   sepLine (Char.ofNat 61),
   "From XID:       " ++ r.from_xid,
   "To XID:         " ++ r.to_xid,
   "Amount (MIST):  " ++ pyFormatComma r.amount_mist,
   "Amount (SUI):   " ++ reprRat r.amount_sui,
   "Coin Type:      " ++ r.coin_type,
   sepLine (Char.ofNat 45),
   "Intent:         " ++ pyStr r.intent,
   "Timestamp (ms): " ++ pyStr r.timestamp_ms,
   "Signature:      " ++ sigAbbrev r.signature,
   sepLine (Char.ofNat 61),
   "\nReady to submit to Sui blockchain!\n"]

/-- Embedding of the source function `decode_response`: extraction of all
fields (any exception aborts with no output), then the printed report. -/
def decode_response (response_json : JValue) : Except PyError (List String) :=
  (extractResponse response_json).map renderReport

/-- Key paths the script reads. Presence of every one of them (with the
three byte-array fields and the amount and signature additionally
well-shaped) is what a successful decode requires. -/
def requiredPaths : List (List String) :=
  [["response"],
   ["response", "data"],
   ["response", "data", "from_xid"],
   ["response", "data", "to_xid"],
   ["response", "data", "amount"],
   ["response", "data", "coin_type"],
   ["response", "timestamp_ms"],
   ["response", "intent"],
   ["signature"]]

/-- Decidable check that every required key path resolves in a document. -/
def hasRequiredKeys (j : JValue) : Bool :=
  requiredPaths.all (fun p => (getPath j p).toBool)

/-- State-threaded form of `decode_response`, for the read-only/frame
property: every operation the script performs on the document is a
subscript read (`d[k]`), and a Python dict read returns the stored value
without modifying the dictionary, so each step passes the document through
unchanged; the pair returned is (result, document after the call). -/
def decode_response_st (response_json : JValue) : Except PyError (List String) × JValue :=
  match decode_response response_json with
  | .ok out => (.ok out, response_json)
  | .error e => (.error e, response_json)

/-- Embedding of the `__main__` block. `parse` models `json.load`
(returning `none` on malformed input, which the script surfaces as a
`json.JSONDecodeError`); `fs` models the readable files (`none` means
`open` raises an `OSError` kind such as `FileNotFoundError`); `stdin`
is the standard-input contents; `args` are the positional command-line
arguments after the program name, so `len(sys.argv) > 1` is `args ≠ []`
and `sys.argv[1]` is `args.head`. With arguments the document is read
from the file named by the first argument and the rest are never
consulted; with no arguments a prompt is printed and the document is
read from standard input. -/
def main_model (parse : String → Option JValue) (fs : String → Option String)
    (stdin : String) (args : List String) : Except PyError (List String) :=
  match args with
  | [] =>
    match parse stdin with
    | none => .error .jsonDecodeError
    | some j => (decode_response j).map (fun out => "Paste JSON response (Ctrl+D when done):" :: out)
  | path :: _ =>
    match fs path with
    | none => .error .osError
    | some content =>
      match parse content with
      | none => .error .jsonDecodeError
      | some j => decode_response j

/-- Example document of the end-to-end test, with the signature left
as a parameter. -/
def exampleDoc (sig : String) : JValue :=
  .obj [("response", .obj
          [("data", .obj
            [("from_xid", .arr [.int 88, .int 49]),
             ("to_xid", .arr [.int 88, .int 50]),
             ("amount", .int 1000000000),
             ("coin_type", .arr [.int 83, .int 85, .int 73])]),
           ("timestamp_ms", .int 1700000000000),
           ("intent", .str "transfer")]),
        ("signature", .str sig)]

example : decode_response (exampleDoc "s") =
    .ok (renderReport
      { from_xid := "X1", to_xid := "X2", amount_mist := 1000000000, amount_sui := 1,
        coin_type := "SUI", timestamp_ms := .int 1700000000000, intent := .str "transfer",
        signature := "s" }) := by decide

theorem utf8EncodeCp_ne_nil (c : Nat) : utf8EncodeCp c ≠ [] := by
  unfold utf8EncodeCp
  split <;> try split
  all_goals simp
  split <;> simp

theorem utf8Step_encodeCp (c : Nat) (hc : ValidCp c) (bs : List Nat) :
    utf8Step (utf8EncodeCp c ++ bs) = some (c, bs) := by
  obtain ⟨hlt, hsur⟩ := hc
  by_cases h1 : c < 0x80
  · simp [utf8EncodeCp, utf8Step, h1]
  by_cases h2 : c < 0x800
  · have e1 : ¬ (0xC0 + c / 64 < 0x80) := by omega
    have e2 : ¬ (0xC0 + c / 64 < 0xC0) := by omega
    have e3 : 0xC0 + c / 64 < 0xE0 := by omega
    have g1 : (0x80 ≤ 0x80 + c % 64 ∧ 0x80 + c % 64 < 0xC0) ∧
        0x80 ≤ (0xC0 + c / 64 - 0xC0) * 64 + (0x80 + c % 64 - 0x80) := by omega
    have gn : (0xC0 + c / 64 - 0xC0) * 64 + (0x80 + c % 64 - 0x80) = c := by omega
    simp only [utf8EncodeCp, if_neg h1, if_pos h2, List.cons_append, List.nil_append]
    simp only [utf8Step, if_neg e1, if_neg e2, if_pos e3]
    simp only [utf8Step2, if_pos g1, gn]
    rw [if_pos]
    omega
  by_cases h3 : c < 0x10000
  · have e1 : ¬ (0xE0 + c / 4096 < 0x80) := by omega
    have e2 : ¬ (0xE0 + c / 4096 < 0xC0) := by omega
    have e3 : ¬ (0xE0 + c / 4096 < 0xE0) := by omega
    have e4 : 0xE0 + c / 4096 < 0xF0 := by omega
    have g1 : ((0x80 ≤ 0x80 + c / 64 % 64 ∧ 0x80 + c / 64 % 64 < 0xC0) ∧
        (0x80 ≤ 0x80 + c % 64 ∧ 0x80 + c % 64 < 0xC0)) ∧
        0x800 ≤ (0xE0 + c / 4096 - 0xE0) * 4096 + (0x80 + c / 64 % 64 - 0x80) * 64 +
          (0x80 + c % 64 - 0x80) ∧
        ¬ (0xD800 ≤ (0xE0 + c / 4096 - 0xE0) * 4096 + (0x80 + c / 64 % 64 - 0x80) * 64 +
             (0x80 + c % 64 - 0x80) ∧
           (0xE0 + c / 4096 - 0xE0) * 4096 + (0x80 + c / 64 % 64 - 0x80) * 64 +
             (0x80 + c % 64 - 0x80) < 0xE000) := by omega
    have gn : (0xE0 + c / 4096 - 0xE0) * 4096 + (0x80 + c / 64 % 64 - 0x80) * 64 +
        (0x80 + c % 64 - 0x80) = c := by omega
    simp only [utf8EncodeCp, if_neg h1, if_neg h2, if_pos h3, List.cons_append, List.nil_append]
    simp only [utf8Step, if_neg e1, if_neg e2, if_neg e3, if_pos e4]
    simp only [utf8Step3, if_pos g1, gn]
    rw [if_pos]
    omega
  · have e1 : ¬ (0xF0 + c / 262144 < 0x80) := by omega
    have e2 : ¬ (0xF0 + c / 262144 < 0xC0) := by omega
    have e3 : ¬ (0xF0 + c / 262144 < 0xE0) := by omega
    have e4 : ¬ (0xF0 + c / 262144 < 0xF0) := by omega
    have e5 : 0xF0 + c / 262144 < 0xF8 := by omega
    have g1 : ((0x80 ≤ 0x80 + c / 4096 % 64 ∧ 0x80 + c / 4096 % 64 < 0xC0) ∧
        (0x80 ≤ 0x80 + c / 64 % 64 ∧ 0x80 + c / 64 % 64 < 0xC0) ∧
        (0x80 ≤ 0x80 + c % 64 ∧ 0x80 + c % 64 < 0xC0)) ∧
        0x10000 ≤ (0xF0 + c / 262144 - 0xF0) * 262144 + (0x80 + c / 4096 % 64 - 0x80) * 4096 +
          (0x80 + c / 64 % 64 - 0x80) * 64 + (0x80 + c % 64 - 0x80) ∧
        (0xF0 + c / 262144 - 0xF0) * 262144 + (0x80 + c / 4096 % 64 - 0x80) * 4096 +
          (0x80 + c / 64 % 64 - 0x80) * 64 + (0x80 + c % 64 - 0x80) < 0x110000 := by omega
    have gn : (0xF0 + c / 262144 - 0xF0) * 262144 + (0x80 + c / 4096 % 64 - 0x80) * 4096 +
        (0x80 + c / 64 % 64 - 0x80) * 64 + (0x80 + c % 64 - 0x80) = c := by omega
    simp only [utf8EncodeCp, if_neg h1, if_neg h2, if_neg h3, List.cons_append, List.nil_append]
    simp only [utf8Step, if_neg e1, if_neg e2, if_neg e3, if_neg e4, if_pos e5]
    simp only [utf8Step4, if_pos g1, gn]
    rw [if_pos]
    omega

theorem utf8Step2_sound (b0 b1 : Nat) (t : List Nat) (hb0a : 0xC0 ≤ b0) (hb0b : b0 < 0xE0)
    (c : Nat) (rest : List Nat) (h : utf8Step2 b0 (b1 :: t) = some (c, rest)) :
    ValidCp c ∧ utf8EncodeCp c ++ rest = b0 :: b1 :: t := by
  simp only [utf8Step2] at h
  split at h
  case isTrue hg =>
    simp only [Option.some.injEq, Prod.mk.injEq] at h
    obtain ⟨hc, hrest⟩ := h
    subst hc
    subst hrest
    refine ⟨⟨by omega, by omega⟩, ?_⟩
    have hc1 : ¬ ((b0 - 0xC0) * 64 + (b1 - 0x80) < 0x80) := by omega
    have hc2 : (b0 - 0xC0) * 64 + (b1 - 0x80) < 0x800 := by omega
    simp only [utf8EncodeCp, if_neg hc1, if_pos hc2, List.cons_append, List.nil_append,
      List.cons.injEq]
    exact ⟨by omega, by omega, trivial⟩
  case isFalse hg => simp at h

theorem utf8Step3_sound (b0 b1 b2 : Nat) (t : List Nat) (hb0a : 0xE0 ≤ b0) (hb0b : b0 < 0xF0)
    (c : Nat) (rest : List Nat) (h : utf8Step3 b0 (b1 :: b2 :: t) = some (c, rest)) :
    ValidCp c ∧ utf8EncodeCp c ++ rest = b0 :: b1 :: b2 :: t := by
  simp only [utf8Step3] at h
  split at h
  case isTrue hg =>
    simp only [Option.some.injEq, Prod.mk.injEq] at h
    obtain ⟨hc, hrest⟩ := h
    subst hc
    subst hrest
    refine ⟨⟨by omega, by omega⟩, ?_⟩
    have hc1 : ¬ ((b0 - 0xE0) * 4096 + (b1 - 0x80) * 64 + (b2 - 0x80) < 0x80) := by omega
    have hc2 : ¬ ((b0 - 0xE0) * 4096 + (b1 - 0x80) * 64 + (b2 - 0x80) < 0x800) := by omega
    have hc3 : (b0 - 0xE0) * 4096 + (b1 - 0x80) * 64 + (b2 - 0x80) < 0x10000 := by omega
    simp only [utf8EncodeCp, if_neg hc1, if_neg hc2, if_pos hc3, List.cons_append,
      List.nil_append, List.cons.injEq]
    exact ⟨by omega, by omega, by omega, trivial⟩
  case isFalse hg => simp at h

theorem utf8Step4_sound (b0 b1 b2 b3 : Nat) (t : List Nat) (hb0a : 0xF0 ≤ b0) (hb0b : b0 < 0xF8)
    (c : Nat) (rest : List Nat) (h : utf8Step4 b0 (b1 :: b2 :: b3 :: t) = some (c, rest)) :
    ValidCp c ∧ utf8EncodeCp c ++ rest = b0 :: b1 :: b2 :: b3 :: t := by
  simp only [utf8Step4] at h
  split at h
  case isTrue hg =>
    simp only [Option.some.injEq, Prod.mk.injEq] at h
    obtain ⟨hc, hrest⟩ := h
    subst hc
    subst hrest
    refine ⟨⟨by omega, by omega⟩, ?_⟩
    have hc1 : ¬ ((b0 - 0xF0) * 262144 + (b1 - 0x80) * 4096 + (b2 - 0x80) * 64 + (b3 - 0x80)
        < 0x80) := by omega
    have hc2 : ¬ ((b0 - 0xF0) * 262144 + (b1 - 0x80) * 4096 + (b2 - 0x80) * 64 + (b3 - 0x80)
        < 0x800) := by omega
    have hc3 : ¬ ((b0 - 0xF0) * 262144 + (b1 - 0x80) * 4096 + (b2 - 0x80) * 64 + (b3 - 0x80)
        < 0x10000) := by omega
    simp only [utf8EncodeCp, if_neg hc1, if_neg hc2, if_neg hc3, List.cons_append,
      List.nil_append, List.cons.injEq]
    exact ⟨by omega, by omega, by omega, by omega, trivial⟩
  case isFalse hg => simp at h

theorem utf8Step_sound (bs : List Nat) (c : Nat) (rest : List Nat)
    (h : utf8Step bs = some (c, rest)) :
    ValidCp c ∧ utf8EncodeCp c ++ rest = bs := by
  cases bs with
  | nil => simp [utf8Step] at h
  | cons b0 tail =>
    simp only [utf8Step] at h
    by_cases h1 : b0 < 0x80
    · rw [if_pos h1] at h
      simp only [Option.some.injEq, Prod.mk.injEq] at h
      obtain ⟨hc, hrest⟩ := h
      subst hc
      subst hrest
      exact ⟨⟨by omega, by omega⟩, by simp [utf8EncodeCp, h1]⟩
    rw [if_neg h1] at h
    by_cases h2 : b0 < 0xC0
    · rw [if_pos h2] at h
      simp at h
    rw [if_neg h2] at h
    by_cases h3 : b0 < 0xE0
    · rw [if_pos h3] at h
      cases tail with
      | nil => simp [utf8Step2] at h
      | cons b1 t => exact utf8Step2_sound b0 b1 t (by omega) h3 c rest h
    rw [if_neg h3] at h
    by_cases h4 : b0 < 0xF0
    · rw [if_pos h4] at h
      match tail with
      | [] => simp [utf8Step3] at h
      | [b1] => simp [utf8Step3] at h
      | b1 :: b2 :: t => exact utf8Step3_sound b0 b1 b2 t (by omega) h4 c rest h
    rw [if_neg h4] at h
    by_cases h5 : b0 < 0xF8
    · rw [if_pos h5] at h
      match tail with
      | [] => simp [utf8Step4] at h
      | [b1] => simp [utf8Step4] at h
      | [b1, b2] => simp [utf8Step4] at h
      | b1 :: b2 :: b3 :: t => exact utf8Step4_sound b0 b1 b2 b3 t (by omega) h5 c rest h
    rw [if_neg h5] at h
    simp at h

theorem utf8Step_shrinks (bs : List Nat) (c : Nat) (rest : List Nat)
    (h : utf8Step bs = some (c, rest)) : rest.length < bs.length := by
  obtain ⟨-, he⟩ := utf8Step_sound bs c rest h
  have hlen := congrArg List.length he
  have hpos : 0 < (utf8EncodeCp c).length :=
    List.length_pos.mpr (utf8EncodeCp_ne_nil c)
  simp only [List.length_append] at hlen
  omega

theorem utf8DecodeLoop_sound : ∀ fuel bs cs, utf8DecodeLoop fuel bs = some cs →
    (∀ c ∈ cs, ValidCp c) ∧ utf8EncodeList cs = bs := by
  intro fuel
  induction fuel with
  | zero =>
    intro bs cs h
    cases bs with
    | nil =>
      simp only [utf8DecodeLoop, Option.some.injEq] at h
      subst h
      exact ⟨by simp, rfl⟩
    | cons b t => simp [utf8DecodeLoop] at h
  | succ f ih =>
    intro bs cs h
    cases bs with
    | nil =>
      simp only [utf8DecodeLoop, Option.some.injEq] at h
      subst h
      exact ⟨by simp, rfl⟩
    | cons b0 rest =>
      simp only [utf8DecodeLoop] at h
      cases hstep : utf8Step (b0 :: rest) with
      | none =>
        simp only [hstep] at h
        exact Option.noConfusion h
      | some pr =>
        obtain ⟨c, rest2⟩ := pr
        simp only [hstep] at h
        cases hloop : utf8DecodeLoop f rest2 with
        | none =>
          simp only [hloop] at h
          exact Option.noConfusion h
        | some cs2 =>
          simp only [hloop, Option.some.injEq] at h
          subst h
          obtain ⟨hv, he⟩ := utf8Step_sound _ _ _ hstep
          obtain ⟨hv2, he2⟩ := ih rest2 cs2 hloop
          refine ⟨?_, ?_⟩
          · intro x hx
            rcases List.mem_cons.mp hx with hx | hx
            · exact hx ▸ hv
            · exact hv2 x hx
          · show utf8EncodeCp c ++ utf8EncodeList cs2 = b0 :: rest
            rw [he2, he]

theorem utf8DecodeLoop_encodeList : ∀ cs, (∀ c ∈ cs, ValidCp c) →
    ∀ fuel, (utf8EncodeList cs).length ≤ fuel →
    utf8DecodeLoop fuel (utf8EncodeList cs) = some cs := by
  intro cs
  induction cs with
  | nil =>
    intro _ fuel _
    cases fuel <;> rfl
  | cons c cs ih =>
    intro h fuel hf
    have hc : ValidCp c := h c (List.mem_cons_self c cs)
    have hcs : ∀ x ∈ cs, ValidCp x := fun x hx => h x (List.mem_cons_of_mem c hx)
    obtain ⟨b, t, hbt⟩ := List.exists_cons_of_ne_nil (utf8EncodeCp_ne_nil c)
    have hsplit : utf8EncodeList (c :: cs) = utf8EncodeCp c ++ utf8EncodeList cs := rfl
    cases fuel with
    | zero =>
      exfalso
      rw [hsplit, hbt] at hf
      simp at hf
    | succ f =>
      have hstep : utf8Step (utf8EncodeCp c ++ utf8EncodeList cs) =
          some (c, utf8EncodeList cs) := utf8Step_encodeCp c hc _
      have hlen : (utf8EncodeList cs).length ≤ f := by
        rw [hsplit, hbt] at hf
        simp only [List.cons_append, List.length_cons, List.length_append] at hf
        omega
      have hrec := ih hcs f hlen
      rw [hsplit, hbt, List.cons_append]
      simp only [utf8DecodeLoop]
      rw [← List.cons_append, ← hbt, hstep]
      simp only [hrec]

theorem utf8DecodeList_encodeList (cs : List Nat) (h : ∀ c ∈ cs, ValidCp c) :
    utf8DecodeList (utf8EncodeList cs) = some cs :=
  utf8DecodeLoop_encodeList cs h _ le_rfl

theorem utf8DecodeList_sound (bs cs : List Nat) (h : utf8DecodeList bs = some cs) :
    (∀ c ∈ cs, ValidCp c) ∧ utf8EncodeList cs = bs :=
  utf8DecodeLoop_sound _ bs cs h

theorem validCp_toNat (c : Char) : ValidCp c.toNat := by
  have h := c.valid
  have e : c.toNat = c.val.toNat := rfl
  simp only [UInt32.isValidChar, Nat.isValidChar] at h
  exact ⟨by rw [e]; omega, by rw [e]; omega⟩

theorem utf8EncodeCp_lt256 (c : Nat) (hc : ValidCp c) : ∀ b ∈ utf8EncodeCp c, b < 256 := by
  obtain ⟨hlt, -⟩ := hc
  intro b hb
  by_cases h1 : c < 0x80
  · simp [utf8EncodeCp, h1] at hb
    omega
  by_cases h2 : c < 0x800
  · simp [utf8EncodeCp, h1, h2] at hb
    omega
  by_cases h3 : c < 0x10000
  · simp [utf8EncodeCp, h1, h2, h3] at hb
    omega
  · simp [utf8EncodeCp, h1, h2, h3] at hb
    omega

theorem utf8EncodeList_lt256 (cs : List Nat) (h : ∀ c ∈ cs, ValidCp c) :
    ∀ b ∈ utf8EncodeList cs, b < 256 := by
  induction cs with
  | nil => intro b hb; simp [utf8EncodeList] at hb
  | cons c cs ih =>
    intro b hb
    rcases List.mem_append.mp hb with hb | hb
    · exact utf8EncodeCp_lt256 c (h c (List.mem_cons_self c cs)) b hb
    · exact ih (fun x hx => h x (List.mem_cons_of_mem c hx)) b hb

theorem utf8EncodeCp_head (c b : Nat) (t : List Nat) (h : utf8EncodeCp c = b :: t) :
    b < 0x80 ∨ 0xC0 ≤ b := by
  by_cases h1 : c < 0x80
  · simp [utf8EncodeCp, h1] at h
    omega
  by_cases h2 : c < 0x800
  · simp [utf8EncodeCp, h1, h2] at h
    omega
  by_cases h3 : c < 0x10000
  · simp [utf8EncodeCp, h1, h2, h3] at h
    omega
  · simp [utf8EncodeCp, h1, h2, h3] at h
    omega

/-- Encoding of a string to its UTF-8 byte-value sequence, as a Python
caller would supply it (a list of integers). -/
def utf8Encode (s : String) : List Int :=
  (utf8EncodeList (s.data.map Char.toNat)).map Int.ofNat

/-- Validity of a byte sequence as UTF-8, stated independently of the
decoder: the bytes are the UTF-8 encoding of some sequence of Unicode
scalar values. -/
def IsUTF8 (bs : List Nat) : Prop :=
  ∃ cs, (∀ c ∈ cs, ValidCp c) ∧ utf8EncodeList cs = bs

theorem not_isUTF8_single128 : ¬ IsUTF8 [128] := by
  rintro ⟨cs, hv, he⟩
  cases cs with
  | nil => simp [utf8EncodeList] at he
  | cons c cs2 =>
    have hc := hv c (List.mem_cons_self _ _)
    obtain ⟨b, t, hbt⟩ := List.exists_cons_of_ne_nil (utf8EncodeCp_ne_nil c)
    rw [show utf8EncodeList (c :: cs2) = utf8EncodeCp c ++ utf8EncodeList cs2 from rfl,
      hbt, List.cons_append] at he
    simp only [List.cons.injEq] at he
    rcases utf8EncodeCp_head c b t hbt with hd | hd <;> omega

/-- C3: for every string s, encoding s to its UTF-8 byte-value sequence
and applying decode_bytes to that sequence yields s again (round-trip
identity of the byte-sequence decoding). -/
theorem c3_decode_bytes_roundtrip (s : String) : decode_bytes (utf8Encode s) = .ok s := by
  have hval : ∀ c ∈ s.data.map Char.toNat, ValidCp c := by
    intro c hc
    rcases List.mem_map.mp hc with ⟨ch, -, rfl⟩
    exact validCp_toNat ch
  have h256 := utf8EncodeList_lt256 _ hval
  have hall : ((utf8EncodeList (s.data.map Char.toNat)).map Int.ofNat).all
      (fun b => 0 ≤ b && b < 256) = true := by
    rw [List.all_eq_true]
    intro x hx
    rcases List.mem_map.mp hx with ⟨b, hb, rfl⟩
    have := h256 b hb
    simp
    omega
  have hmap : ((utf8EncodeList (s.data.map Char.toNat)).map Int.ofNat).map Int.toNat
      = utf8EncodeList (s.data.map Char.toNat) := by
    rw [List.map_map]
    simp [Function.comp_def]
  unfold decode_bytes utf8Encode
  rw [if_pos hall, hmap, utf8DecodeList_encodeList _ hval]
  have hchars : (s.data.map Char.toNat).map Char.ofNat = s.data := by
    rw [List.map_map]
    simp [Function.comp_def, Char.ofNat_toNat]
  simp only [hchars]

/-- C5: for every byte sequence (integers in range 0..255) that is not
valid UTF-8, decode_bytes fails with the UnicodeDecodeError kind (the
EncodingError-kind condition). -/
theorem c5_decode_bytes_invalid_utf8 (bs : List Int)
    (hrange : ∀ b ∈ bs, 0 ≤ b ∧ b < 256)
    (hbad : ¬ IsUTF8 (bs.map Int.toNat)) :
    decode_bytes bs = .error .unicodeDecodeError := by
  have hall : bs.all (fun b => 0 ≤ b && b < 256) = true := by
    rw [List.all_eq_true]
    intro x hx
    have := hrange x hx
    simp
    omega
  unfold decode_bytes
  rw [if_pos hall]
  cases hdec : utf8DecodeList (bs.map Int.toNat) with
  | none => rfl
  | some cs =>
    exfalso
    obtain ⟨hv, he⟩ := utf8DecodeList_sound _ _ hdec
    exact hbad ⟨cs, hv, he⟩

/-- Witness for C5 at the concrete input [128], a lone continuation byte. -/
theorem c5_witness :
    (∀ b ∈ ([128] : List Int), 0 ≤ b ∧ b < 256) ∧
    decode_bytes [128] = .error .unicodeDecodeError :=
  ⟨by decide, c5_decode_bytes_invalid_utf8 [128] (by decide) not_isUTF8_single128⟩

/-- C9: for every input list containing an integer element outside 0..255,
decode_bytes fails with the ValueError kind raised by bytes(...), before
any UTF-8 decoding takes place, and that kind is distinct from the
UnicodeDecodeError (EncodingError) kind. -/
theorem c9_decode_bytes_out_of_range (bs : List Int) (b : Int) (hb : b ∈ bs)
    (hout : b < 0 ∨ 255 < b) :
    decode_bytes bs = .error .valueError ∧ PyError.valueError ≠ PyError.unicodeDecodeError := by
  refine ⟨?_, by decide⟩
  have hfalse : bs.all (fun x => 0 ≤ x && x < 256) = false := by
    rw [List.all_eq_false]
    exact ⟨b, hb, by simp; omega⟩
  simp [decode_bytes, hfalse]

/-- Witness for C9 at the concrete input [300]. -/
theorem c9_witness :
    decode_bytes [300] = .error .valueError ∧
    PyError.valueError ≠ PyError.unicodeDecodeError :=
  c9_decode_bytes_out_of_range [300] 300 (by decide) (Or.inr (by decide))

theorem mkRat_eq_int_div (a : Int) : mkRat a 1000000000 = (a : ℚ) / 1000000000 := by
  rw [Rat.mkRat_eq_divInt, Rat.divInt_eq_div]
  norm_num

/-- Invariant of a successful extraction: the amount relation holds for
the returned entity, and every required key path resolved in the source
document (the extraction walked all of them). -/
theorem extractResponse_ok_inv (j : JValue) (r : EnclaveResponse)
    (h : extractResponse j = .ok r) :
    r.amount_sui = mkRat r.amount_mist 1000000000 ∧ hasRequiredKeys j = true := by
  unfold extractResponse at h
  simp only [bind, Except.bind] at h
  cases e1 : JValue.getKey j "response" with
  | error e => simp only [e1] at h; exact Except.noConfusion h
  | ok response =>
  simp only [e1] at h
  cases e2 : JValue.getKey response "data" with
  | error e => simp only [e2] at h; exact Except.noConfusion h
  | ok data =>
  simp only [e2] at h
  cases e3 : JValue.getKey data "from_xid" with
  | error e => simp only [e3] at h; exact Except.noConfusion h
  | ok v1 =>
  simp only [e3] at h
  cases e4 : jIntList v1 with
  | error e => simp only [e4] at h; exact Except.noConfusion h
  | ok l1 =>
  simp only [e4] at h
  cases e5 : decode_bytes l1 with
  | error e => simp only [e5] at h; exact Except.noConfusion h
  | ok fx =>
  simp only [e5] at h
  cases e6 : JValue.getKey data "to_xid" with
  | error e => simp only [e6] at h; exact Except.noConfusion h
  | ok v2 =>
  simp only [e6] at h
  cases e7 : jIntList v2 with
  | error e => simp only [e7] at h; exact Except.noConfusion h
  | ok l2 =>
  simp only [e7] at h
  cases e8 : decode_bytes l2 with
  | error e => simp only [e8] at h; exact Except.noConfusion h
  | ok tx =>
  simp only [e8] at h
  cases e9 : JValue.getKey data "amount" with
  | error e => simp only [e9] at h; exact Except.noConfusion h
  | ok v3 =>
  simp only [e9] at h
  cases e10 : jInt v3 with
  | error e => simp only [e10] at h; exact Except.noConfusion h
  | ok am =>
  simp only [e10] at h
  cases e11 : JValue.getKey data "coin_type" with
  | error e => simp only [e11] at h; exact Except.noConfusion h
  | ok v4 =>
  simp only [e11] at h
  cases e12 : jIntList v4 with
  | error e => simp only [e12] at h; exact Except.noConfusion h
  | ok l4 =>
  simp only [e12] at h
  cases e13 : decode_bytes l4 with
  | error e => simp only [e13] at h; exact Except.noConfusion h
  | ok ct =>
  simp only [e13] at h
  cases e14 : JValue.getKey response "timestamp_ms" with
  | error e => simp only [e14] at h; exact Except.noConfusion h
  | ok ts =>
  simp only [e14] at h
  cases e15 : JValue.getKey response "intent" with
  | error e => simp only [e15] at h; exact Except.noConfusion h
  | ok it =>
  simp only [e15] at h
  cases e16 : JValue.getKey j "signature" with
  | error e => simp only [e16] at h; exact Except.noConfusion h
  | ok sv =>
  simp only [e16] at h
  cases e17 : jStr sv with
  | error e => simp only [e17] at h; exact Except.noConfusion h
  | ok sg =>
  simp only [e17, Except.ok.injEq] at h
  subst h
  refine ⟨rfl, ?_⟩
  simp [hasRequiredKeys, requiredPaths, getPath, e1, e2, e3, e6, e9, e11, e14, e15, e16,
    Except.toBool]

/-- C2: for every input document with integer amount, the extracted
amount_sui equals amount_mist divided by 1,000,000,000, computed as a
single exact division with no further rounding or truncation; the
transform is a pure function of the document. -/
theorem c2_amount_relation (j : JValue) (r : EnclaveResponse)
    (h : extractResponse j = .ok r) :
    r.amount_sui = (r.amount_mist : ℚ) / 1000000000 := by
  rw [(extractResponse_ok_inv j r h).1, mkRat_eq_int_div]

/-- Concrete entity produced by the end-to-end example document. -/
def exampleResp (sig : String) : EnclaveResponse :=
  { from_xid := "X1", to_xid := "X2", amount_mist := 1000000000,
    amount_sui := mkRat 1000000000 1000000000, coin_type := "SUI",
    timestamp_ms := .int 1700000000000, intent := .str "transfer", signature := sig }

/-- Witness for C2 at the example document. -/
theorem c2_witness :
    extractResponse (exampleDoc "s") = .ok (exampleResp "s") ∧
    (exampleResp "s").amount_sui = ((exampleResp "s").amount_mist : ℚ) / 1000000000 :=
  ⟨rfl, c2_amount_relation (exampleDoc "s") (exampleResp "s") rfl⟩

/-- Classification of the error kinds the spec calls SchemaError-kind:
missing-key access (KeyError) and wrong-type access (TypeError). -/
def isSchemaError : PyError → Bool
  | .keyError _ => true
  | .typeError => true
  | _ => false

/-- Document missing the required key coin_type whose from_xid bytes are
additionally not valid UTF-8. -/
def c4Doc : JValue :=
  .obj [("response", .obj
          [("data", .obj
            [("from_xid", .arr [.int 128]),
             ("to_xid", .arr [.int 88, .int 50]),
             ("amount", .int 1000000000)]),
           ("timestamp_ms", .int 1700000000000),
           ("intent", .str "transfer")]),
        ("signature", .str "s")]

/-- C4 counterexample: a document missing the required key coin_type on
which decode_response fails with the EncodingError kind (from the earlier
invalid from_xid bytes), not with a SchemaError-kind (missing-key)
condition as the claim states for every such document. -/
theorem c4_counterexample :
    getPath c4Doc ["response", "data", "coin_type"] = .error (.keyError "coin_type") ∧
    hasRequiredKeys c4Doc = false ∧
    decode_response c4Doc = .error .unicodeDecodeError ∧
    isSchemaError .unicodeDecodeError = false :=
  ⟨rfl, by decide, by decide, by decide⟩

/-- C4 (amended): every input document missing any required key makes
decode_response fail with some error and hence produce no report output
at all; the error is the missing-key SchemaError kind whenever no field
extracted before the missing key fails first, but an earlier invalid
field can surface a different kind. -/
theorem c4_missing_key_fails (j : JValue) (h : hasRequiredKeys j = false) :
    ∃ e, decode_response j = .error e := by
  cases hd : decode_response j with
  | error e => exact ⟨e, rfl⟩
  | ok out =>
    exfalso
    unfold decode_response at hd
    cases hx : extractResponse j with
    | error e => simp only [hx, Except.map] at hd; exact Except.noConfusion hd
    | ok r =>
      have := (extractResponse_ok_inv j r hx).2
      rw [h] at this
      exact Bool.noConfusion this

/-- Witness for C4 (amended) at the counterexample document. -/
theorem c4_witness :
    hasRequiredKeys c4Doc = false ∧ ∃ e, decode_response c4Doc = .error e :=
  ⟨by decide, c4_missing_key_fails c4Doc (by decide)⟩

/-- C6: the abbreviated signature display never fails on a short string:
both slices clamp to the string bounds, so the display always has exactly
min 32 len prefix characters and min 32 len suffix characters around the
ellipsis (never an out-of-range failure), and for a signature of at most
32 characters it degrades to the full string duplicated around the
ellipsis (prefix and suffix overlap completely). -/
theorem c6_sig_abbrev_short (s : String) (h : s.data.length < 64) :
    (sigAbbrev s).data.length = min 32 s.data.length + (3 + min 32 s.data.length) ∧
    (s.data.length ≤ 32 → sigAbbrev s = s ++ "..." ++ s) := by
  constructor
  · simp [sigAbbrev]
    omega
  · intro hle
    unfold sigAbbrev
    have h1 : s.data.take 32 = s.data := List.take_of_length_le hle
    have h2 : s.data.length - 32 = 0 := by omega
    rw [h1, h2, List.drop_zero]

/-- Witness for C6 at the two-character signature AB. -/
theorem c6_witness :
    ("AB" : String).data.length < 64 ∧
    ((sigAbbrev "AB").data.length = min 32 ("AB" : String).data.length +
        (3 + min 32 ("AB" : String).data.length) ∧
      (("AB" : String).data.length ≤ 32 → sigAbbrev "AB" = "AB" ++ "..." ++ "AB")) :=
  ⟨by decide, c6_sig_abbrev_short "AB" (by decide)⟩

/-- C7: with one positional argument the program reads the document from
the file named by the argument: an unreadable file fails with the
IOError kind, unparsable content fails with the ParseError kind (in both
cases with no report output possible), and readable, parsable content is
decoded exactly as decode_response does. -/
theorem c7_file_argument (parse : String → Option JValue) (fs : String → Option String)
    (stdin : String) (path : String) :
    (fs path = none → main_model parse fs stdin [path] = .error .osError) ∧
    (∀ content, fs path = some content → parse content = none →
      main_model parse fs stdin [path] = .error .jsonDecodeError) ∧
    (∀ content j, fs path = some content → parse content = some j →
      main_model parse fs stdin [path] = decode_response j) := by
  refine ⟨?_, ?_, ?_⟩
  · intro h
    simp [main_model, h]
  · intro c h1 h2
    simp [main_model, h1, h2]
  · intro c j h1 h2
    simp [main_model, h1, h2]

/-- Witness for C7 with an unreadable file. -/
theorem c7_witness :
    main_model (fun _ => none) (fun _ => none) "" ["payload.json"] = .error .osError :=
  (c7_file_argument (fun _ => none) (fun _ => none) "" "payload.json").1 rfl

/-- C8: decode_response never mutates its input document: the script only
performs subscript reads on it (Python dict reads do not modify the
dictionary, and the source contains no assignment into the document), so
the state-threaded run returns the document unchanged alongside exactly
the output of decode_response. -/
theorem c8_no_mutation (j : JValue) :
    (decode_response_st j).2 = j ∧ (decode_response_st j).1 = decode_response j := by
  unfold decode_response_st
  cases decode_response j <;> simp

/-- C10: with two or more positional arguments the program behaves
exactly as with only the first: the document is read from the file named
by the first argument and the remaining arguments are never consulted. -/
theorem c10_extra_args_ignored (parse : String → Option JValue) (fs : String → Option String)
    (stdin : String) (a : String) (rest : List String) :
    main_model parse fs stdin (a :: rest) = main_model parse fs stdin [a] := rfl

/-- Expected report for the end-to-end example document: the decoded
identifier, amount and coin lines as literal strings, with the signature
line abbreviating the given signature. -/
def exampleReport (sig : String) : List String :=
  [sepLine (Char.ofNat 61),
   "XWallet Transfer Payload (Decoded)",
   sepLine (Char.ofNat 61),
   "From XID:       X1",
   "To XID:         X2",
   "Amount (MIST):  1,000,000,000",
   "Amount (SUI):   1.0",
   "Coin Type:      SUI",
   sepLine (Char.ofNat 45),
   "Intent:         transfer",
   "Timestamp (ms): 1700000000000",
   "Signature:      " ++ sigAbbrev sig,
   sepLine (Char.ofNat 61),
   "\nReady to submit to Sui blockchain!\n"]

/-- C1: on the end-to-end example document (any 64-character signature),
decode_response succeeds, rendering exactly the expected report, whose
lines contain From XID X1, To XID X2, the thousands-grouped Amount (MIST)
1,000,000,000, Amount (SUI) 1.0, and Coin Type SUI. -/
theorem c1_end_to_end (sig : String) (_h : sig.data.length = 64) :
    decode_response (exampleDoc sig) = .ok (exampleReport sig) ∧
      "From XID:       X1" ∈ exampleReport sig ∧
      "To XID:         X2" ∈ exampleReport sig ∧
      "Amount (MIST):  1,000,000,000" ∈ exampleReport sig ∧
      "Amount (SUI):   1.0" ∈ exampleReport sig ∧
      "Coin Type:      SUI" ∈ exampleReport sig := by
  have h1 : decode_response (exampleDoc sig) = .ok (renderReport (exampleResp sig)) := rfl
  have hr : renderReport (exampleResp sig) = exampleReport sig := by
    simp only [renderReport, exampleReport, exampleResp, List.cons.injEq]
    and_intros <;> first | rfl | decide
  refine ⟨by rw [h1, hr], ?_, ?_, ?_, ?_, ?_⟩
  · exact List.mem_cons_of_mem _ (List.mem_cons_of_mem _ (List.mem_cons_of_mem _
      (List.mem_cons_self _ _)))
  · exact List.mem_cons_of_mem _ (List.mem_cons_of_mem _ (List.mem_cons_of_mem _
      (List.mem_cons_of_mem _ (List.mem_cons_self _ _))))
  · exact List.mem_cons_of_mem _ (List.mem_cons_of_mem _ (List.mem_cons_of_mem _
      (List.mem_cons_of_mem _ (List.mem_cons_of_mem _ (List.mem_cons_self _ _)))))
  · exact List.mem_cons_of_mem _ (List.mem_cons_of_mem _ (List.mem_cons_of_mem _
      (List.mem_cons_of_mem _ (List.mem_cons_of_mem _ (List.mem_cons_of_mem _
      (List.mem_cons_self _ _))))))
  · exact List.mem_cons_of_mem _ (List.mem_cons_of_mem _ (List.mem_cons_of_mem _
      (List.mem_cons_of_mem _ (List.mem_cons_of_mem _ (List.mem_cons_of_mem _
      (List.mem_cons_of_mem _ (List.mem_cons_self _ _)))))))

/-- Witness for C1 with a concrete 64-character signature. -/
theorem c1_witness :
    (String.mk (List.replicate 64 'a')).data.length = 64 ∧
    (decode_response (exampleDoc (String.mk (List.replicate 64 'a'))) =
        .ok (exampleReport (String.mk (List.replicate 64 'a'))) ∧
      "From XID:       X1" ∈ exampleReport (String.mk (List.replicate 64 'a')) ∧
      "To XID:         X2" ∈ exampleReport (String.mk (List.replicate 64 'a')) ∧
      "Amount (MIST):  1,000,000,000" ∈ exampleReport (String.mk (List.replicate 64 'a')) ∧
      "Amount (SUI):   1.0" ∈ exampleReport (String.mk (List.replicate 64 'a')) ∧
      "Coin Type:      SUI" ∈ exampleReport (String.mk (List.replicate 64 'a'))) :=
  ⟨by decide, c1_end_to_end (String.mk (List.replicate 64 'a')) (by decide)⟩
